import Mathlib

/-!
Verification development for the retrieval-and-filtering core of the
rag-youtube repository: the FAISS-backed vector store
(`src/vector_store_faiss.py`), the metadata enhancer
(`src/data_pipeline/metadata_enhancer.py`), the document filter
(`src/api/filters.py`) and the retrieval orchestrator
(`src/api/rag_engine.py`).  Python functions are embedded as computable
Lean definitions; machine floats are modelled by exact rationals and
Python string truthiness by `Option` (a `none` value stands for an
absent key or an empty/falsy value, as noted at each field).
-/

namespace RagYoutube

/-! ## A small regular-expression engine

`metadata_enhancer.py` classifies titles with `re.search` over a fixed
table of patterns compiled with `re.IGNORECASE`.  The patterns use only
literals, the classes `\s` and `\w`, grouping, alternation `|`, `\s*`,
`\s+` and `\w+`, so they are captured exactly by the following regular
expressions, matched with Brzozowski derivatives.  Case-insensitivity is
modelled by lowering the title first: every literal in the table is an
ASCII lowercase letter, digit or symbol, so matching the lowered title
case-sensitively agrees with `re.IGNORECASE` on the original. -/

inductive RE where
  | emp : RE
  | eps : RE
  | cls : (Char → Bool) → RE
  | alt : RE → RE → RE
  | cat : RE → RE → RE
  | star : RE → RE

/-- Does the regular expression accept the empty string? -/
def RE.nullable : RE → Bool
  | .emp => false
  | .eps => true
  | .cls _ => false
  | .alt a b => a.nullable || b.nullable
  | .cat a b => a.nullable && b.nullable
  | .star _ => true

/-- Brzozowski derivative of a regular expression with respect to one
character. -/
def RE.deriv : RE → Char → RE
  | .emp, _ => .emp
  | .eps, _ => .emp
  | .cls p, c => if p c then .eps else .emp
  | .alt a b, c => .alt (a.deriv c) (b.deriv c)
  | .cat a b, c =>
      if a.nullable then .alt (.cat (a.deriv c) b) (b.deriv c)
      else .cat (a.deriv c) b
  | .star a, c => .cat (a.deriv c) (.star a)

/-- Does the regular expression match some prefix of the character list?
This is Python's `re.match` at a fixed start position. -/
def RE.matchesPref (r : RE) : List Char → Bool
  | [] => r.nullable
  | c :: cs => r.nullable || (r.deriv c).matchesPref cs

/-- Does the regular expression match somewhere inside the character
list?  This is Python's `re.search`: a match may start at any
position. -/
def RE.findMatch (r : RE) : List Char → Bool
  | [] => r.nullable
  | c :: cs => r.matchesPref (c :: cs) || r.findMatch cs

/-- Literal character. -/
def rchar (c : Char) : RE := .cls (fun x => x == c)

/-- Literal string (concatenation of its characters). -/
def rstr (s : String) : RE := s.data.foldr (fun c r => .cat (rchar c) r) .eps

/-- Alternation of a list of regular expressions. -/
def ralts (l : List RE) : RE := l.foldr .alt .emp

/-- Python's `\s` class (ASCII view): space, tab, newline, carriage
return, vertical tab, form feed. -/
def isPySpace (c : Char) : Bool :=
  c == ' ' || c == '\t' || c == '\n' || c == '\r' || c == '\x0b' || c == '\x0c'

/-- Python's `\w` class (ASCII view): letters, digits, underscore. -/
def isPyWord (c : Char) : Bool := c.isAlphanum || c == '_'

/-- The regular expression `\s`. -/
def wsOne : RE := .cls isPySpace

/-- The regular expression `\s*`. -/
def wsStar : RE := .star wsOne

/-- One-or-more repetition `r+`, as `r r*`. -/
def rplus (r : RE) : RE := .cat r (.star r)

/-- The regular expression `\s+`. -/
def wsPlus : RE := rplus wsOne

/-- The regular expression `\w+`. -/
def wordPlus : RE := rplus (.cls isPyWord)

/-- Concatenation of a list of regular expressions. -/
def rcats (l : List RE) : RE := l.foldr .cat .eps

/-! ## Category patterns

Translation of `MetadataEnhancer.CATEGORY_PATTERNS`
(metadata_enhancer.py lines 18-52), one Lean term per source regex, in
source order. -/

/-- Patterns of the `daily_update` group. -/
def dailyUpdatePatterns : List RE :=
  [ rcats [rstr "market", wsStar,
      ralts [rstr "update", rstr "outlook", rstr "recap", rstr "review"]],
    rcats [rstr "daily", wsStar,
      ralts [rstr "update", rstr "recap", rstr "market"]],
    rcats [ralts [rstr "monday", rstr "tuesday", rstr "wednesday",
        rstr "thursday", rstr "friday"], wsStar,
      ralts [rstr "update", rstr "market", rstr "recap"]],
    rcats [ralts [rstr "am", rstr "pm"], wsStar,
      ralts [rstr "update", rstr "market", rstr "outlook"]],
    rcats [rstr "open", wsStar, rstr "interest"],
    rcats [rstr "gamma", wsStar, ralts [rstr "update", rstr "levels"]],
    .alt (rstr "0dte") (rcats [rstr "zero", wsStar, rstr "dte"]) ]

/-- Patterns of the `educational` group. -/
def educationalPatterns : List RE :=
  [ rcats [ralts [rstr "what", rstr "how", rstr "why", rstr "when"], wsPlus,
      ralts [rstr "is", rstr "are", rstr "does", rstr "do"]],
    ralts [rstr "explained", rstr "explaining", rstr "explains"],
    rcats [rstr "introduction", wsPlus, rstr "to"],
    ralts [rstr "tutorial", rstr "guide", rstr "basics"],
    ralts [rstr "learn", rstr "learning", rstr "lesson"],
    ralts [rstr "101", rstr "beginner", rstr "fundamental"],
    ralts [rstr "understanding", rstr "understand"] ]

/-- Patterns of the `interview` group. -/
def interviewPatterns : List RE :=
  [ ralts [rstr "interview", rstr "conversation",
      rcats [rstr "chat", wsPlus, rstr "with"]],
    .alt (rcats [rchar 'q', wsStar, rchar '&', wsStar, rchar 'a'])
      (rcats [rchar 'q', wsStar, rstr "and", wsStar, rchar 'a']),
    .alt (rcats [rstr "ask", wsPlus, rstr "me", wsPlus, rstr "anything"])
      (rstr "ama"),
    ralts [rstr "guest", rstr "featuring",
      rcats [rstr "with", wsPlus, wordPlus, wsPlus, wordPlus]],
    ralts [rstr "discussion", rstr "discussing"] ]

/-- Patterns of the `special_event` group. -/
def specialEventPatterns : List RE :=
  [ .alt (rstr "fomc")
      (rcats [rstr "fed", wsStar, ralts [rstr "meeting", rstr "decision"]]),
    ralts [rstr "earnings", rstr "opex",
      rcats [rstr "options", wsStar, rstr "expiration"]],
    rcats [rstr "special", wsStar,
      ralts [rstr "event", rstr "report", rstr "update"]],
    ralts [rstr "breaking", rstr "alert", rstr "urgent"],
    .alt (rcats [rstr "year", wsStar, .alt (rstr "end") (rstr "review")])
      (rstr "annual"),
    ralts [rstr "holiday", rstr "christmas", rstr "thanksgiving"] ]

/-- The category table in its fixed source order (Python dicts preserve
insertion order, so `compiled_patterns.items()` iterates exactly in this
order). -/
def categoryGroups : List (String × List RE) :=
  [ ("daily_update", dailyUpdatePatterns),
    ("educational", educationalPatterns),
    ("interview", interviewPatterns),
    ("special_event", specialEventPatterns) ]

/-- Lowered character list of a title, modelling `re.IGNORECASE`. -/
def lowerChars (s : String) : List Char := s.data.map Char.toLower

/-- Does any pattern of the group match the title (case-insensitively)? -/
def groupMatches (patterns : List RE) (title : String) : Bool :=
  patterns.any (fun r => r.findMatch (lowerChars title))

/-- Translation of `MetadataEnhancer._infer_category` (lines 113-132):
empty titles short-circuit to `uncategorized`, otherwise the first group
with any matching pattern wins, falling back to `uncategorized`. -/
def infer_category (title : String) : String :=
  if title = "" then "uncategorized"
  else
    match categoryGroups.find? (fun g => groupMatches g.2 title) with
    | some g => g.1
    | none => "uncategorized"

/-- Category inference as the specification words it: the first category
group, in the fixed order, containing any pattern that matches the
title, with no special case for the empty title. -/
def firstMatchingCategory (title : String) : String :=
  match categoryGroups.find? (fun g => groupMatches g.2 title) with
  | some g => g.1
  | none => "uncategorized"

/-! ## Quality scoring

Translation of `MetadataEnhancer._calculate_quality` (lines 134-178) and
the quality branch of `enhance_metadata` (lines 93-102).  The float
expression `int(word_count / (duration/60.0))` is modelled by the exact
integer computation `word_count * 60 / duration` (floor division; the
operands are non-negative so `int` truncation is flooring). -/

/-- Translation of `MetadataEnhancer.TECHNICAL_KEYWORDS` (lines 55-61),
in source order. -/
def TECHNICAL_KEYWORDS : List String :=
  [ "gamma", "delta", "theta", "vega", "implied volatility", "iv",
    "options chain", "strike price", "expiration", "hedging",
    "dealer positioning", "market maker", "volatility surface",
    "put/call ratio", "open interest", "volume", "skew",
    "vix", "vwap", "standard deviation", "probability" ]

/-- Python's `needle in hay` substring test on character lists. -/
def containsSub (needle hay : List Char) : Bool :=
  hay.tails.any (fun t => needle.isPrefixOf t)

/-- Number of technical keywords occurring as substrings of the lowered
content: `sum(1 for keyword in TECHNICAL_KEYWORDS if keyword in
content_lower)`. -/
def tech_count (content : String) : Nat :=
  TECHNICAL_KEYWORDS.countP (fun kw => containsSub kw.data (lowerChars content))

/-- Number of maximal runs of non-whitespace characters; the second
argument records whether the scan is currently inside a word.  This is
`len(content.split())`. -/
def countWordsAux : List Char → Bool → Nat
  | [], _ => 0
  | c :: cs, inWord =>
      if isPySpace c then countWordsAux cs false
      else (if inWord then 0 else 1) + countWordsAux cs true

/-- Python's `len(content.split())`. -/
def word_count (content : String) : Nat := countWordsAux content.data false

/-- The quality tiers, with their source ordering `none < low < medium <
high` given by `Tier.toNat`. -/
inductive Tier where
  | tnone : Tier
  | low : Tier
  | medium : Tier
  | high : Tier
deriving DecidableEq

/-- Ordinal value of a tier: none is 0, low 1, medium 2, high 3. -/
def Tier.toNat : Tier → Nat
  | .tnone => 0
  | .low => 1
  | .medium => 2
  | .high => 3

/-- The string the source stores for each tier. -/
def Tier.name : Tier → String
  | .tnone => "none"
  | .low => "low"
  | .medium => "medium"
  | .high => "high"

/-- The ordered tier rules of `_calculate_quality` (lines 164-172),
first match winning. -/
def tierOf (wpm tech : Nat) : Tier :=
  if wpm ≥ 120 ∧ tech ≥ 5 then .high
  else if wpm ≥ 80 ∧ tech ≥ 2 then .medium
  else if wpm ≥ 40 then .low
  else .tnone

/-- Words-per-minute computation of `_calculate_quality` (lines 152-155):
`int(word_count / (duration/60.0))` for a positive duration, in exact
arithmetic. -/
def wpmOf (content : String) (duration : Nat) : Nat :=
  word_count content * 60 / duration

/-- Translation of `MetadataEnhancer._calculate_quality` (lines 134-178):
empty content or zero duration yield `("none", 0, 0)`; otherwise the
tier is computed from words per minute and the technical keyword count.
The result triple is (quality_score, words_per_minute,
technical_keyword_count). -/
def calculate_quality (content : String) (duration : Nat) : String × Nat × Nat :=
  if content = "" ∨ duration = 0 then ("none", 0, 0)
  else ((tierOf (wpmOf content duration) (tech_count content)).name,
    wpmOf content duration, tech_count content)

/-- The quality branch of `enhance_metadata` (lines 93-102): when the
`content` key is absent the source assigns `quality_score = "unknown"`
without calling `_calculate_quality`; when present it calls
`_calculate_quality(content, metadata.get("duration", 0))`, so an absent
duration arrives as `0`.  `content = none` models the absent key. -/
def enhance_quality (content : Option String) (duration : Nat) : String × Nat × Nat :=
  match content with
  | none => ("unknown", 0, 0)
  | some c => calculate_quality c duration

/-! ## Enriched metadata and search results

The metadata dictionaries attached to documents, as read by
`filters.py`.  An `Option` field is `none` when the key is absent or its
value is Python-falsy (the empty string for `published_date`), because
the source reads these fields with `metadata.get(...)` defaults and
truthiness tests. -/

structure Metadata where
  has_captions : Bool := false
  category : Option String := none
  quality_score : Option String := none
  published_date : Option String := none
  playlists : List String := []
deriving DecidableEq

/-- A retrieved source as built by `RAGEngine.retrieve_sources` (lines
61-67): content text, similarity score (an exact rational standing for
the Python float) and metadata. -/
structure Doc where
  content : String := ""
  score : ℚ := 0
  metadata : Metadata := {}
deriving DecidableEq

/-! ## Document filter

Translation of `DocumentFilter` (`src/api/filters.py`).  The filter
dictionary is modelled by a record with one field per recognized key;
an absent key and a present key holding its falsy default behave
identically in every read (`self.filters.get(key, default)` and
truthiness tests), so the record identifies the two. -/

structure FilterSpec where
  require_captions : Bool := false
  categories : List String := []
  quality_levels : List String := []
  date_from : Option String := none
  date_to : Option String := none
  playlists : List String := []
deriving DecidableEq

/-- Translation of `DocumentFilter.has_active_filters` (lines 117-138):
some dimension is active. -/
def has_active_filters (f : FilterSpec) : Bool :=
  f.require_captions || !f.categories.isEmpty || !f.quality_levels.isEmpty
    || f.date_from.isSome || f.date_to.isSome || !f.playlists.isEmpty

/-- The caption check of `apply_filters` (lines 53-56): skip the document
when captions are required but absent. -/
def checkCaptions (f : FilterSpec) (m : Metadata) : Bool :=
  !f.require_captions || m.has_captions

/-- The category check (lines 58-63): with a non-empty category list the
document's category (defaulting to `uncategorized`) must be a member. -/
def checkCategories (f : FilterSpec) (m : Metadata) : Bool :=
  f.categories.isEmpty || f.categories.contains (m.category.getD "uncategorized")

/-- The quality check (lines 65-70): with a non-empty quality list the
document's quality score (defaulting to `unknown`) must be a member. -/
def checkQuality (f : FilterSpec) (m : Metadata) : Bool :=
  f.quality_levels.isEmpty || f.quality_levels.contains (m.quality_score.getD "unknown")

/-- The date-range check (lines 72-85): with either bound set the
document must have a (truthy) published date, not below `date_from` and
not above `date_to`, compared as strings. -/
def checkDates (f : FilterSpec) (m : Metadata) : Bool :=
  if f.date_from.isSome || f.date_to.isSome then
    match m.published_date with
    | none => false
    | some pd =>
        (match f.date_from with
         | some df => !decide (pd < df)
         | none => true)
        && (match f.date_to with
            | some dt => !decide (dt < pd)
            | none => true)
  else true

/-- The playlist check (lines 87-92): with a non-empty requested playlist
list, some requested id must occur among the document's playlists. -/
def checkPlaylists (f : FilterSpec) (m : Metadata) : Bool :=
  f.playlists.isEmpty || f.playlists.any (fun p => m.playlists.contains p)

/-- A document survives iff it passes every dimension check; this is the
conjunction realized by the sequence of `continue` statements in the
loop body of `apply_filters` (lines 50-95). -/
def docPasses (f : FilterSpec) (m : Metadata) : Bool :=
  checkCaptions f m && checkCategories f m && checkQuality f m
    && checkDates f m && checkPlaylists f m

/-- The loop of `apply_filters`: survivors are appended in input order. -/
def filterLoop (f : FilterSpec) : List Doc → List Doc
  | [] => []
  | d :: ds =>
      if docPasses f d.metadata then d :: filterLoop f ds else filterLoop f ds

/-- Translation of `DocumentFilter.apply_filters` (lines 34-97).  The
source guard `if not self.filters: return documents` returns the input
unchanged for an empty filter dictionary; in this record model a
dictionary with no active dimension takes that branch (a non-empty
dictionary all of whose values are the falsy defaults skips the branch
but filters nothing, which `c2_apply_filters_spec` below makes
precise). -/
def apply_filters (f : FilterSpec) (documents : List Doc) : List Doc :=
  if has_active_filters f then filterLoop f documents else documents

/-- Translation of `DocumentFilter.calculate_over_fetch` (lines 99-115). -/
def calculate_over_fetch (num_requested : Nat) (active_filters : Bool) : Nat :=
  if !active_filters then num_requested
  else min (num_requested * 3) 20

/-! ## FAISS vector store

Translation of `FAISSVectorStore` (`src/vector_store_faiss.py`).  The
FAISS index itself is external; the store state keeps only what the
invariants speak about: the vector count `ntotal`, and the parallel
`documents` and `metadata` arrays. -/

structure Store where
  ntotal : Nat := 0
  documents : List String := []
  metadata : List Metadata := []
deriving DecidableEq

/-- The freshly created store (`__init__` plus the `else` branch of
`load`): an empty index of the configured dimension and empty parallel
arrays. -/
def emptyStore : Store := {}

/-- The three persisted artifacts as found on disk at startup:
`faiss.index` (modelled by the vector count it deserializes to, `none`
when the file is absent), `documents.json` and `metadata.json`. -/
structure PersistedState where
  indexFile : Option Nat := none
  docsFile : Option (List String) := none
  metaFile : Option (List Metadata) := none

/-- Translation of `FAISSVectorStore.load` (lines 40-55): when the index
binary exists it is read, and each JSON file that exists replaces the
corresponding (initially empty) array; when the index binary is absent a
fresh empty index is created.  No consistency check of any kind is
performed and no exception is raised. -/
def load (p : PersistedState) : Store :=
  match p.indexFile with
  | some n =>
      { ntotal := n,
        documents := p.docsFile.getD [],
        metadata := p.metaFile.getD [] }
  | none => emptyStore

/-- Observable side effects of `add_texts`, in order: the batched
embedding-gateway call, the index insertion, and the synchronous rewrite
of the three persisted files by `save`. -/
inductive StoreEffect where
  | embedCall : List String → StoreEffect
  | indexAdd : Nat → StoreEffect
  | saveFiles : StoreEffect
deriving DecidableEq

/-- Translation of `FAISSVectorStore.add_texts` (lines 86-108) together
with its effect trace.  An empty `texts` list returns immediately (line
88-89).  Otherwise: one batched embedding call produces one vector per
text (the OpenAI embeddings endpoint returns one item per input), the
index grows by that many vectors, the texts are appended to `documents`,
the given `metadatas` (or one empty dictionary per text) are appended to
`metadata`, and the state is saved to disk. -/
def add_texts (s : Store) (texts : List String) (metadatas : Option (List Metadata)) :
    Store × List StoreEffect :=
  if texts.isEmpty then (s, [])
  else
    ({ ntotal := s.ntotal + texts.length,
       documents := s.documents ++ texts,
       metadata := s.metadata ++
         (match metadatas with
          | some ms => ms
          | none => List.replicate texts.length {}) },
     [.embedCall texts, .indexAdd texts.length, .saveFiles])

/-- The parallel-array length invariant of the store:
`len(documents) == len(metadata) == index.ntotal`. -/
def storeConsistent (s : Store) : Prop :=
  s.documents.length = s.metadata.length ∧ s.metadata.length = s.ntotal

instance : DecidablePred storeConsistent := fun s => by
  unfold storeConsistent; infer_instance

/-- Run a sequence of `add_texts` calls, discarding effect traces. -/
def runAdds (s : Store) : List (List String × Option (List Metadata)) → Store
  | [] => s
  | c :: cs => runAdds (add_texts s c.1 c.2).1 cs

/-- Translation of `FAISSVectorStore.similarity_search_with_score`
(lines 131-154).  The FAISS call `index.search` is external: its reply
for the query is passed in as the list `hits` of (L2 distance, index)
pairs, aligned as `distances[0]` and `indices[0]` are.  Each in-range
hit is converted to a (document, score, metadata) triple with
`score = 1 / (1 + distance)`; out-of-range indices (FAISS pads with -1
when the index holds fewer than `k` vectors) are skipped. -/
def similarity_search_with_score (s : Store) (hits : List (ℚ × Int)) :
    List (String × ℚ × Metadata) :=
  hits.filterMap (fun h =>
    if 0 ≤ h.2 ∧ h.2 < (s.documents.length : Int) then
      some ((s.documents.getD h.2.toNat "",
        1 / (1 + h.1),
        if h.2.toNat < s.metadata.length then s.metadata.getD h.2.toNat {} else {}))
    else none)

/-! ## Retrieval orchestrator

Translation of `RAGEngine.retrieve_sources` (`src/api/rag_engine.py`
lines 47-75), for a fresh engine whose document filter starts without
filters.  The vector-store search is abstracted as the function
`search` from the fetch count to the scored result list (the question
string is fixed inside it). -/

def retrieve_sources (search : Nat → List Doc) (filters : Option FilterSpec)
    (num_sources : Nat) : List Doc :=
  match filters with
  | none => search num_sources
  | some f =>
      if has_active_filters f then
        (apply_filters f (search (calculate_over_fetch num_sources true))).take
          num_sources
      else search num_sources

/-! ## Claims about the over-fetch policy and the store -/

/-- Claim C4: for every n > 0, `calculate_over_fetch(n, True)` equals
`min(3*n, 20)` and `calculate_over_fetch(n, False)` returns n
unchanged. -/
theorem c4_over_fetch_bound (n : Nat) (hn : 0 < n) :
    calculate_over_fetch n true = min (3 * n) 20 ∧
      calculate_over_fetch n false = n := by
  unfold calculate_over_fetch
  simp [Nat.mul_comm]

/-- Witness for C4 at n = 5. -/
theorem c4_over_fetch_bound_witness :
    calculate_over_fetch 5 true = min (3 * 5) 20 ∧
      calculate_over_fetch 5 false = 5 :=
  c4_over_fetch_bound 5 (by decide)

/-- Claim C10: calling `add_texts` with an empty texts list is a no-op:
the state is unchanged and no effect (no embedding call, no index
insertion, no file rewrite) is produced. -/
theorem c10_add_texts_empty_noop (s : Store) (metadatas : Option (List Metadata)) :
    add_texts s [] metadatas = (s, []) := rfl

/-- One `add_texts` call whose optional metadata list matches the texts
list in length preserves the parallel-array length invariant. -/
theorem add_texts_keeps_consistent (s : Store) (texts : List String)
    (metadatas : Option (List Metadata)) (h : storeConsistent s)
    (hm : ∀ ms, metadatas = some ms → ms.length = texts.length) :
    storeConsistent (add_texts s texts metadatas).1 := by
  obtain ⟨h1, h2⟩ := h
  unfold add_texts
  by_cases he : texts.isEmpty
  · simpa [he] using ⟨h1, h2⟩
  · cases metadatas with
    | none => simp [he, storeConsistent]; omega
    | some ms =>
        have := hm ms rfl
        simp [he, storeConsistent]
        omega

/-- Claim C3: after every sequence of successful `add_texts` calls from
the fresh store, each satisfying the precondition that a supplied
metadata list has the same length as its texts list, the store satisfies
`len(documents) == len(metadata) == index.ntotal`. -/
theorem c3_length_invariant (calls : List (List String × Option (List Metadata)))
    (h : ∀ c ∈ calls, ∀ ms, c.2 = some ms → ms.length = c.1.length) :
    storeConsistent (runAdds emptyStore calls) := by
  suffices H : ∀ s, storeConsistent s → storeConsistent (runAdds s calls) by
    exact H emptyStore ⟨rfl, rfl⟩
  induction calls with
  | nil => intro s hs; exact hs
  | cons c cs ih =>
      intro s hs
      have hc := h c (List.mem_cons_self c cs)
      have hrest : ∀ c ∈ cs, ∀ ms, c.2 = some ms → ms.length = c.1.length :=
        fun x hx => h x (List.mem_cons_of_mem c hx)
      exact ih hrest (add_texts s c.1 c.2).1
        (add_texts_keeps_consistent s c.1 c.2 hs hc)

/-- Witness for C3 on a concrete two-call sequence, one call with
explicit metadata and one without. -/
theorem c3_length_invariant_witness :
    storeConsistent (runAdds emptyStore
      [(["a", "b"], none), (["c"], some [{}])]) := by
  apply c3_length_invariant
  intro c hc ms hms
  simp only [List.mem_cons, List.not_mem_nil, or_false] at hc
  rcases hc with rfl | rfl
  · simp at hms
  · simp at hms; simp [← hms]

/-! ## Claims about quality scoring -/

/-- Claim C9: with the tiers ordered `none < low < medium < high` via
`Tier.toNat`, the tier computed from (words per minute, technical
keyword count) is monotone in each argument separately: raising one
argument while holding the other fixed never lowers the tier. -/
theorem c9_quality_monotone (wpm tech x y : Nat) (hxy : x ≤ y) :
    (tierOf wpm x).toNat ≤ (tierOf wpm y).toNat ∧
      (tierOf x tech).toNat ≤ (tierOf y tech).toNat := by
  unfold tierOf
  constructor <;> split_ifs <;> simp_all [Tier.toNat] <;> omega

/-- Witness for C9 at wpm = 130, tech = 1, raising 2 to 5. -/
theorem c9_quality_monotone_witness :
    (tierOf 130 2).toNat ≤ (tierOf 130 5).toNat ∧
      (tierOf 2 1).toNat ≤ (tierOf 5 1).toNat :=
  c9_quality_monotone 130 1 2 5 (by decide)

/-- Counterexample for claim C7: a record with no `content` key (and any
duration) is assigned quality_score `"unknown"`, not `"none"` as the
claim states for absent content. -/
theorem c7_counterexample :
    (enhance_quality none 5).1 = "unknown" ∧ (enhance_quality none 5).1 ≠ "none" := by
  constructor
  · rfl
  · decide

/-- Claim C7 as amended: when the content key is absent the quality data
is `("unknown", 0, 0)`; when content is present but empty, or the
duration is absent or zero, it is `("none", 0, 0)`; otherwise the tier
is computed by the ordered rules of `tierOf` (first match winning) on
the words-per-minute and technical-keyword-count values, which are also
returned.  The last conjunct states the ordered tier rules
non-definitionally. -/
theorem c7_quality_dispatch (content : Option String) (duration : Nat) :
    (content = none → enhance_quality content duration = ("unknown", 0, 0)) ∧
    (∀ c, content = some c → (c = "" ∨ duration = 0) →
        enhance_quality content duration = ("none", 0, 0)) ∧
    (∀ c, content = some c → c ≠ "" → duration ≠ 0 →
        enhance_quality content duration =
          ((tierOf (wpmOf c duration) (tech_count c)).name,
            wpmOf c duration, tech_count c)) ∧
    (∀ w t, (tierOf w t = .high ↔ w ≥ 120 ∧ t ≥ 5) ∧
        (tierOf w t = .medium ↔ ¬(w ≥ 120 ∧ t ≥ 5) ∧ w ≥ 80 ∧ t ≥ 2) ∧
        (tierOf w t = .low ↔ ¬(w ≥ 120 ∧ t ≥ 5) ∧ ¬(w ≥ 80 ∧ t ≥ 2) ∧ w ≥ 40) ∧
        (tierOf w t = .tnone ↔ ¬(w ≥ 120 ∧ t ≥ 5) ∧ ¬(w ≥ 80 ∧ t ≥ 2) ∧ ¬ w ≥ 40)) := by
  refine ⟨?_, ?_, ?_, ?_⟩
  · rintro rfl; rfl
  · rintro c rfl hc
    simp [enhance_quality, calculate_quality, hc]
  · rintro c rfl hc hd
    simp [enhance_quality, calculate_quality, hc, hd]
  · intro w t
    unfold tierOf
    refine ⟨?_, ?_, ?_, ?_⟩ <;> split_ifs <;> simp_all

/-- Witness for C7 (amended) on present-but-empty content. -/
theorem c7_quality_dispatch_witness :
    enhance_quality (some "") 7 = ("none", 0, 0) :=
  (c7_quality_dispatch (some "") 7).2.1 "" rfl (Or.inl rfl)

/-! ## Claims about persistence loading -/

/-- Counterexample for claim C8: loading persisted artifacts with
inconsistent lengths (an index of 2 vectors, one document, zero metadata
objects) does not fail: `load` returns a store holding the mismatched
artifacts as-is, violating the parallel-array length invariant. -/
theorem c8_counterexample :
    load { indexFile := some 2, docsFile := some ["a"], metaFile := some [] } =
      { ntotal := 2, documents := ["a"], metadata := [] } ∧
    ¬ storeConsistent
      (load { indexFile := some 2, docsFile := some ["a"], metaFile := some [] }) := by
  constructor
  · rfl
  · decide

/-- Claim C8 as amended: loading never fails and performs no consistency
check.  When the index binary exists the store holds its vector count
and whichever JSON artifacts exist (absent files default to empty
lists), regardless of any length relation among the three; when the
index binary is absent a fresh empty store is created. -/
theorem c8_load_loads_silently (p : PersistedState) :
    (∀ n, p.indexFile = some n →
      load p = { ntotal := n, documents := p.docsFile.getD [], metadata := p.metaFile.getD [] }) ∧
    (p.indexFile = none → load p = emptyStore) := by
  constructor
  · intro n hn; simp [load, hn]
  · intro hn; simp [load, hn]

/-- Witness for C8 (amended) on a concrete mismatched persisted state. -/
theorem c8_load_loads_silently_witness :
    load { indexFile := some 3, docsFile := some ["a"], metaFile := none } =
      { ntotal := 3, documents := ["a"], metadata := [] } :=
  (c8_load_loads_silently
    { indexFile := some 3, docsFile := some ["a"], metaFile := none }).1 3 rfl

/-! ## Claims about filtering -/

/-- What the specification says a surviving result satisfies: the
conjunction of the active dimension checks, stated as propositions. -/
def passesSpec (f : FilterSpec) (m : Metadata) : Prop :=
  (f.require_captions = true → m.has_captions = true) ∧
  (f.categories ≠ [] → m.category.getD "uncategorized" ∈ f.categories) ∧
  (f.quality_levels ≠ [] → m.quality_score.getD "unknown" ∈ f.quality_levels) ∧
  ((f.date_from ≠ none ∨ f.date_to ≠ none) →
    ∃ pd, m.published_date = some pd ∧
      (∀ df, f.date_from = some df → ¬ pd < df) ∧
      (∀ dt, f.date_to = some dt → ¬ dt < pd)) ∧
  (f.playlists ≠ [] → ∃ p ∈ f.playlists, p ∈ m.playlists)

theorem filterLoop_eq_filter (f : FilterSpec) (l : List Doc) :
    filterLoop f l = l.filter (fun d => docPasses f d.metadata) := by
  induction l with
  | nil => rfl
  | cons d ds ih => simp only [filterLoop, List.filter_cons, ih]

theorem docPasses_of_inactive (f : FilterSpec) (m : Metadata)
    (h : has_active_filters f = false) : docPasses f m = true := by
  simp only [has_active_filters, Bool.or_eq_false_iff] at h
  obtain ⟨⟨⟨⟨⟨h1, h2⟩, h3⟩, h4⟩, h5⟩, h6⟩ := h
  have hc : f.categories = [] := by simpa using h2
  have hq : f.quality_levels = [] := by simpa using h3
  have hdf : f.date_from = none := by simpa using h4
  have hdt : f.date_to = none := by simpa using h5
  have hp : f.playlists = [] := by simpa using h6
  simp [docPasses, checkCaptions, checkCategories, checkQuality, checkDates,
    checkPlaylists, h1, hc, hq, hdf, hdt, hp]

theorem checkCaptions_iff (f : FilterSpec) (m : Metadata) :
    checkCaptions f m = true ↔ (f.require_captions = true → m.has_captions = true) := by
  unfold checkCaptions
  cases f.require_captions <;> simp

theorem checkCategories_iff (f : FilterSpec) (m : Metadata) :
    checkCategories f m = true ↔
      (f.categories ≠ [] → m.category.getD "uncategorized" ∈ f.categories) := by
  unfold checkCategories
  cases hc : f.categories <;> simp [hc]

theorem checkQuality_iff (f : FilterSpec) (m : Metadata) :
    checkQuality f m = true ↔
      (f.quality_levels ≠ [] → m.quality_score.getD "unknown" ∈ f.quality_levels) := by
  unfold checkQuality
  cases hq : f.quality_levels <;> simp [hq]

theorem checkDates_iff (f : FilterSpec) (m : Metadata) :
    checkDates f m = true ↔
      ((f.date_from ≠ none ∨ f.date_to ≠ none) →
        ∃ pd, m.published_date = some pd ∧
          (∀ df, f.date_from = some df → ¬ pd < df) ∧
          (∀ dt, f.date_to = some dt → ¬ dt < pd)) := by
  unfold checkDates
  cases hdf : f.date_from <;> cases hdt : f.date_to <;>
    cases hpd : m.published_date <;> simp [hdf, hdt, hpd]

theorem checkPlaylists_iff (f : FilterSpec) (m : Metadata) :
    checkPlaylists f m = true ↔
      (f.playlists ≠ [] → ∃ p ∈ f.playlists, p ∈ m.playlists) := by
  unfold checkPlaylists
  cases hp : f.playlists <;> simp [hp]

theorem docPasses_iff (f : FilterSpec) (m : Metadata) :
    docPasses f m = true ↔ passesSpec f m := by
  simp only [docPasses, Bool.and_eq_true, checkCaptions_iff, checkCategories_iff,
    checkQuality_iff, checkDates_iff, checkPlaylists_iff, passesSpec]
  tauto

/-- Claim C2: `apply_filters` returns exactly the subsequence of its
input whose metadata passes every active dimension check — it equals
`List.filter` of the pass predicate (hence survivors keep their relative
order and the filter is stable), the output is a sublist of the input,
and the pass predicate is precisely the conjunction of the dimension
checks stated by the specification. -/
theorem c2_apply_filters_spec (f : FilterSpec) (documents : List Doc) :
    apply_filters f documents = documents.filter (fun d => docPasses f d.metadata) ∧
    (apply_filters f documents).Sublist documents ∧
    (∀ m : Metadata, docPasses f m = true ↔ passesSpec f m) := by
  have he : apply_filters f documents =
      documents.filter (fun d => docPasses f d.metadata) := by
    unfold apply_filters
    by_cases h : has_active_filters f = true
    · simp [h, filterLoop_eq_filter]
    · rw [if_neg (by simp [h])]
      rw [eq_comm, List.filter_eq_self]
      intro d _hd
      exact docPasses_of_inactive f d.metadata (by simpa using h)
  exact ⟨he, he ▸ List.filter_sublist documents, docPasses_iff f⟩

/-! ## Claims about retrieval -/

/-- Claim C1: for every query (fixed inside the search oracle, which
returns at most as many results as asked), every n > 0 and every
optional filter spec, `retrieve_sources` returns at most n results; it
fetches n candidates when the spec is absent or inactive and
`calculate_over_fetch(n, True)` candidates otherwise, filters them and
truncates to the first n survivors; fewer than n survivors are returned
exactly as they are (no padding), and zero survivors yield the empty
list. -/
theorem c1_retrieve_sources_bound (search : Nat → List Doc)
    (filters : Option FilterSpec) (n : Nat) (hn : 0 < n)
    (hsearch : ∀ k, (search k).length ≤ k) :
    (retrieve_sources search filters n).length ≤ n ∧
    (filters = none → retrieve_sources search filters n = search n) ∧
    (∀ f, filters = some f → has_active_filters f = false →
      retrieve_sources search filters n = search n) ∧
    (∀ f, filters = some f → has_active_filters f = true →
      retrieve_sources search filters n =
        (apply_filters f (search (calculate_over_fetch n true))).take n ∧
      ((apply_filters f (search (calculate_over_fetch n true))).length ≤ n →
        retrieve_sources search filters n =
          apply_filters f (search (calculate_over_fetch n true))) ∧
      (apply_filters f (search (calculate_over_fetch n true)) = [] →
        retrieve_sources search filters n = [])) := by
  refine ⟨?_, ?_, ?_, ?_⟩
  · cases filters with
    | none => exact hsearch n
    | some f =>
        by_cases hf : has_active_filters f = true
        · simp only [retrieve_sources, hf, if_true]
          rw [List.length_take]
          exact Nat.min_le_left n _
        · have hf' : has_active_filters f = false := by simpa using hf
          simp only [retrieve_sources, hf', if_false]
          exact hsearch n
  · rintro rfl; rfl
  · rintro f rfl hf
    simp [retrieve_sources, hf]
  · rintro f rfl hf
    refine ⟨by simp [retrieve_sources, hf], fun hlen => ?_, fun hnil => ?_⟩
    · simp [retrieve_sources, hf, List.take_of_length_le hlen]
    · simp [retrieve_sources, hf, hnil]

/-- Witness for C1: a two-element corpus oracle, an active
captions-requiring spec, n = 1. -/
theorem c1_retrieve_sources_bound_witness :
    (retrieve_sources (fun k => List.take k
        [{ content := "x", metadata := { has_captions := true } }, { content := "y" }])
      (some { require_captions := true }) 1).length ≤ 1 :=
  (c1_retrieve_sources_bound _ _ 1 (by decide)
    (fun k => by simpa using Nat.min_le_left k 2)).1

/-! ## Claims about the similarity search -/

/-- Claim C5: provided the external FAISS flat L2 index returns its hits
in non-decreasing distance order with non-negative distances (both are
properties of exact L2 nearest-neighbour search),
`similarity_search_with_score` returns scores in non-increasing order,
every score is `1 / (1 + distance)` for the distance of its hit, and
every score lies in [0, 1]. -/
theorem c5_search_score_order (s : Store) (hits : List (ℚ × Int))
    (hsorted : hits.Pairwise (fun a b => a.1 ≤ b.1))
    (hnonneg : ∀ h ∈ hits, 0 ≤ h.1) :
    (similarity_search_with_score s hits).Pairwise (fun a b => b.2.1 ≤ a.2.1) ∧
    (∀ r ∈ similarity_search_with_score s hits,
      (∃ h ∈ hits, r.2.1 = 1 / (1 + h.1)) ∧ 0 ≤ r.2.1 ∧ r.2.1 ≤ 1) := by
  constructor
  · have hR : hits.Pairwise (fun a b : ℚ × Int => 0 ≤ a.1 ∧ a.1 ≤ b.1) :=
      List.Pairwise.imp_of_mem (fun ha _hb hab => ⟨hnonneg _ ha, hab⟩) hsorted
    refine List.Pairwise.filterMap _ (fun a a' haa' b hb b' hb' => ?_) hR
    simp only [Option.mem_def] at hb hb'
    by_cases hca : 0 ≤ a.2 ∧ a.2 < (s.documents.length : Int)
    · by_cases hca' : 0 ≤ a'.2 ∧ a'.2 < (s.documents.length : Int)
      · rw [if_pos hca] at hb
        rw [if_pos hca'] at hb'
        obtain ⟨rfl⟩ := Option.some_inj.mp hb
        obtain ⟨rfl⟩ := Option.some_inj.mp hb'
        have h0 : (0 : ℚ) < 1 + a.1 := by linarith [haa'.1]
        have h1 : (1 : ℚ) + a.1 ≤ 1 + a'.1 := by linarith [haa'.2]
        simpa using one_div_le_one_div_of_le h0 h1
      · rw [if_neg hca'] at hb'; cases hb'
    · rw [if_neg hca] at hb; cases hb
  · intro r hr
    obtain ⟨h, hmem, hsome⟩ := List.mem_filterMap.mp hr
    by_cases hc : 0 ≤ h.2 ∧ h.2 < (s.documents.length : Int)
    · rw [if_pos hc] at hsome
      obtain ⟨rfl⟩ := Option.some_inj.mp hsome
      have hd : (0 : ℚ) ≤ h.1 := hnonneg h hmem
      have h0 : (0 : ℚ) < 1 + h.1 := by linarith
      refine ⟨⟨h, hmem, rfl⟩, ?_, ?_⟩
      · positivity
      · rw [div_le_one h0]; linarith
    · rw [if_neg hc] at hsome; cases hsome

/-- Witness for C5 on a two-document store and two sorted hits. -/
theorem c5_search_score_order_witness :
    (similarity_search_with_score
        { ntotal := 2, documents := ["a", "b"], metadata := [{}, {}] }
        [((0 : ℚ), (0 : Int)), ((1 : ℚ), (1 : Int))]).Pairwise
      (fun a b => b.2.1 ≤ a.2.1) :=
  (c5_search_score_order _ _
    (by simp [List.pairwise_cons])
    (by intro h hh; simp at hh; rcases hh with rfl | rfl <;> norm_num)).1

/-! ## Claims about category inference -/

theorem no_pattern_matches_empty_title :
    categoryGroups.all (fun g => !(groupMatches g.2 "")) = true := by rfl

/-- Claim C6: the inferred category is the first category group, in the
fixed order daily_update, educational, interview, special_event, that
contains a pattern matching the title case-insensitively (so a title
matching two groups resolves to the earlier one), and `uncategorized` is
returned exactly when no pattern of any group matches — the empty title
included, since no pattern matches the empty string. -/
theorem c6_category_precedence (title : String) :
    infer_category title = firstMatchingCategory title ∧
    categoryGroups.map Prod.fst =
      ["daily_update", "educational", "interview", "special_event"] ∧
    (infer_category title = "uncategorized" ↔
      ∀ g ∈ categoryGroups, groupMatches g.2 title = false) := by
  have hmap : categoryGroups.map Prod.fst =
      ["daily_update", "educational", "interview", "special_event"] := by rfl
  have hempty : ∀ g ∈ categoryGroups, groupMatches g.2 "" = false := by
    intro g hg
    have := List.all_eq_true.mp no_pattern_matches_empty_title g hg
    simpa using this
  have heq : infer_category title = firstMatchingCategory title := by
    unfold infer_category firstMatchingCategory
    by_cases ht : title = ""
    · subst ht
      rw [if_pos rfl,
        List.find?_eq_none.mpr (fun g hg => by simp [hempty g hg])]
    · rw [if_neg ht]
  refine ⟨heq, hmap, ?_⟩
  rw [heq]
  unfold firstMatchingCategory
  cases hf : categoryGroups.find? (fun g => groupMatches g.2 title) with
  | none =>
      simp only [true_iff]
      intro g hg
      have := List.find?_eq_none.mp hf g hg
      simpa using this
  | some g =>
      have hgmem : g ∈ categoryGroups := List.mem_of_find?_eq_some hf
      have hgm : groupMatches g.2 title = true := by
        simpa using List.find?_some hf
      have hname : g.1 ≠ "uncategorized" := by
        have hm : g.1 ∈ categoryGroups.map Prod.fst := List.mem_map_of_mem _ hgmem
        rw [hmap] at hm
        simp only [List.mem_cons, List.mem_singleton, List.not_mem_nil,
          or_false] at hm
        rcases hm with h | h | h | h <;> simp [h]
      constructor
      · intro h; exact absurd h hname
      · intro hall; exact absurd hgm (by simp [hall g hgmem])

/-! Concrete sanity checks of the embedded classifiers, evaluated by the
kernel. -/

example : infer_category "Daily Market Update: SPY Levels" = "daily_update" := by rfl

example : infer_category "Interview about the market update" = "daily_update" := by rfl

example : infer_category "Random Video" = "uncategorized" := by rfl

example :
    enhance_quality (some "gamma delta theta vega vix skew and more words here now") 5 =
      ("high", 132, 6) := by rfl

end RagYoutube
